import Mathlib

/-!
Verification of the Lumi deployment-tool core against its specification.

The development shallowly embeds the CLI driver (`env.go`-style command file,
`src/unnamed/part_001`) and the generated resource-provider RPC stubs
(`src/unnamed/part_000`, `src/lib/aws/rpc/cloudwatch/alarm.go`,
`src/lib/aws/rpc/ec2/vpcGatewayAttachment.go`).  Pure functions become Lean
functions; file-system state is passed explicitly as a map from paths to
blobs together with an effect trace; fallible operations return `Option`.

Parts of the repository that the sources refer to but that are not present
under `src/` (the `pkg/resource` diff engine and plan model, the
`pkg/encoding` marshalers, and `pkg/workspace` path resolution) are modelled
from the specification; each such definition carries a doc comment starting
with `Modelled from the spec:`.
-/

namespace Lumi

/-- Modelled from the spec: a float64 surrogate.  Only identity and
finiteness matter for the verified claims (JSON marshalling of a non-finite
number fails), so a float is represented by a finiteness flag and an
integer stand-in for its bit pattern. -/
structure F64 where
  finite : Bool
  val : Int
deriving DecidableEq, Repr

/-- Modelled from the spec: the recursive tagged-union `PropertyValue`
(spec section 3): Null, Bool, Number, String, ResourceReference, Array,
Object, Unknown (the latter carrying a display type label). -/
inductive PropertyValue where
  | null
  | bool (b : Bool)
  | number (v : F64)
  | string (s : String)
  | resource (id : String)
  | array (xs : List PropertyValue)
  | object (m : List (String × PropertyValue))
  | unknown (typeLabel : String)

/-- Modelled from the spec: an ordered property map, keys unique, exposed in
a stable order (spec section 3, `PropertyMap`). -/
abbrev PropertyMap := List (String × PropertyValue)

mutual

/-- Modelled from the spec: whether JSON marshalling of a property value
succeeds.  Go's `json.Marshal` fails on non-finite floats, which is the one
encode failure reachable from an envfile. -/
def pvEncodable : PropertyValue → Bool
  | PropertyValue.null => true
  | PropertyValue.bool _ => true
  | PropertyValue.number v => v.finite
  | PropertyValue.string _ => true
  | PropertyValue.resource _ => true
  | PropertyValue.array xs => pvListEncodable xs
  | PropertyValue.object m => pvMapEncodable m
  | PropertyValue.unknown _ => true

/-- Modelled from the spec: encodability of every element of an array value. -/
def pvListEncodable : List PropertyValue → Bool
  | [] => true
  | x :: xs => pvEncodable x && pvListEncodable xs

/-- Modelled from the spec: encodability of every value of an object value. -/
def pvMapEncodable : List (String × PropertyValue) → Bool
  | [] => true
  | kv :: xs => pvEncodable kv.2 && pvMapEncodable xs

end

/-- Modelled from the spec: one recorded resource state in a snapshot
(type token, provider identifier, URN and property map; spec section 6,
checkpoint file). -/
structure ResourceState where
  type : String
  id : String
  urn : String
  properties : PropertyMap

/-- Modelled from the spec: a snapshot is the ordered list of resource
states of an environment (spec glossary). -/
abbrev Snapshot := List ResourceState

/-- Modelled from the spec: `resource.Env`, the environment name plus its
configuration variables. -/
structure Env where
  name : String
  config : List (String × String)

/-- Modelled from the spec: `resource.Envfile`, the durable checkpoint
record: environment name, configuration, and the latest snapshot
(spec section 3, Checkpoint/Envfile). -/
structure Envfile where
  name : String
  config : List (String × String)
  latest : Option Snapshot

/-- Modelled from the spec: `resource.SerializeEnvfile` builds the durable
record from the environment and the snapshot to persist. -/
def serializeEnvfile (env : Env) (snap : Option Snapshot) : Envfile :=
  { name := env.name, config := env.config, latest := snap }

/-- Modelled from the spec: `resource.DeserializeEnvfile` recovers the
environment and its latest snapshot from the durable record. -/
def deserializeEnvfile (ef : Envfile) : Env × Option Snapshot :=
  ({ name := ef.name, config := ef.config }, ef.latest)

/-- Modelled from the spec: encodability of a whole envfile: every property
value reachable from the latest snapshot must be encodable. -/
def envfileEncodable (ef : Envfile) : Bool :=
  match ef.latest with
  | none => true
  | some snap => snap.all (fun r => pvMapEncodable r.properties)

/-- Modelled from the spec: a serialized byte blob, viewed semantically.
`markup typed strictOk` is a well-formed markup document: `typed` is the
result of decoding it into the typed `Envfile` structure (`none` when the
typed decode fails, e.g. on a type mismatch), and `strictOk` records
whether the second, generic decode passes the strict `mapper.Decode`
validation (performed after deleting `latest.resources`).  `garbage` is a
blob that is not parseable markup at all, so both decodes fail on it. -/
inductive Blob where
  | markup (typed : Option Envfile) (strictOk : Bool)
  | garbage

/-- Modelled from the spec: decoding a blob into the typed `Envfile`
structure (the first unmarshal in `readEnv`). -/
def blobTypedDecode : Blob → Option Envfile
  | Blob.markup typed _ => typed
  | Blob.garbage => none

/-- Modelled from the spec: the generic object produced by the second
unmarshal in `readEnv`, used purely for strict validation. -/
structure GenericObject where
  typed : Option Envfile
  strictOk : Bool

/-- Modelled from the spec: decoding a blob into a generic object
(`mapper.Object`); succeeds exactly on well-formed markup. -/
def blobGenericDecode : Blob → Option GenericObject
  | Blob.markup typed strictOk => some { typed := typed, strictOk := strictOk }
  | Blob.garbage => none

/-- Modelled from the spec: the strict `mapper.Decode` validation pass over
the generic object; succeeds when the markup carries no strict-validation
defects. -/
def strictDecodeOk (o : GenericObject) : Bool :=
  o.strictOk

/-- Modelled from the spec: `encoding.Marshaler`, the per-format
serialization interface consulted by save and load. -/
structure Marshaler where
  marshal : Envfile → Option Blob
  unmarshal : Blob → Option Envfile

/-- Modelled from the spec: the JSON marshaler.  Marshalling fails exactly
when the envfile is not encodable; a successful marshal produces a
well-formed markup blob that decodes back to the envfile and passes strict
validation. -/
def jsonMarshaler : Marshaler :=
  { marshal := fun ef =>
      if envfileEncodable ef then some (Blob.markup (some ef) true) else none,
    unmarshal := blobTypedDecode }

/-- Modelled from the spec: the YAML marshaler, behaviourally identical to
the JSON one at this level of abstraction. -/
def yamlMarshaler : Marshaler :=
  { marshal := fun ef =>
      if envfileEncodable ef then some (Blob.markup (some ef) true) else none,
    unmarshal := blobTypedDecode }

/-- Modelled from the spec: the table of recognized extensions
(spec section 6: the checkpoint file is a JSON/YAML-equivalent document and
the extension determines the encoding). -/
def encodingMarshalers : List (String × Marshaler) :=
  [(".json", jsonMarshaler), (".yaml", yamlMarshaler)]

/-- Modelled from the spec: the default extension used when a path carries
none. -/
def defaultExt : String := ".json"

/-- Helper for `filepathExt`: walk the reversed character list of a path,
accumulating the suffix, until the final dot of the last path element is
found ( `/` ends the last element without a dot). -/
def extAux : List Char → List Char → String
  | [], _ => ""
  | c :: rest, acc =>
    if c = '/' then ""
    else if c = '.' then String.mk ('.' :: acc)
    else extAux rest (c :: acc)

/-- Go `filepath.Ext`: the suffix beginning at the final dot in the final
path element; empty when there is no dot. -/
def filepathExt (p : String) : String :=
  extAux p.data.reverse []

/-- Go `filepath.Dir` (without path cleaning): everything before the final
slash, or `.` when there is none. -/
def filepathDir (p : String) : String :=
  match p.data.reverse.dropWhile (fun c => c != '/') with
  | [] => "."
  | _ :: rest => if rest = [] then "/" else String.mk rest.reverse

/-- Modelled from the spec: `encoding.Detect` resolves a path to a
marshaler from its extension, defaulting the extension when the path has
none, and returns `none` for an unrecognized (undetectable) format. -/
def encodingDetect (path : String) : Option Marshaler × String :=
  let e := filepathExt path
  let e := if e = "" then defaultExt else e
  (encodingMarshalers.lookup e, e)

/-- Modelled from the spec: `workspace.EnvPath`, the default
per-environment checkpoint location (spec section 4.4: `Save` resolves the
target path to a default per-environment location when it is empty). -/
def envPath (name : String) : String :=
  ".lumi/env/" ++ name ++ ".json"

/-- Modelled from the spec: the file system seen by checkpoint persistence,
a map from paths to blobs (single-writer, spec section 5). -/
abbrev Fs := String → Option Blob

/-- Whether a file exists (`os.Stat` succeeding). -/
def fsExists (fs : Fs) (path : String) : Bool :=
  (fs path).isSome

/-- Go `os.Rename` semantics on the file map: when the source exists it is
moved to the destination (replacing it); when the source is missing the
rename fails and the file system is unchanged. -/
def fsRename (fs : Fs) (src dst : String) : Fs :=
  match fs src with
  | none => fs
  | some b => fun p => if p = dst then some b else if p = src then none else fs p

/-- Go `ioutil.WriteFile` on the file map: the path now holds the blob. -/
def fsWrite (fs : Fs) (path : String) (b : Blob) : Fs :=
  fun p => if p = path then some b else fs p

/-- One file-system side effect issued by the persistence layer. -/
inductive FsEff where
  | rename (src dst : String)
  | mkdirAll (dir : String)
  | write (path : String) (b : Blob)

/-- One diagnostic emitted through the sink, by error code. -/
inductive ErrorCode where
  | illegalMarkupExtension (ext : String)
  | invalidEnvName (name : String)
  | ioError
  | cantReadDeployment (file : String)

/-- Embeds `backupEnv` (part_001 lines 417-423): back up an existing file by
renaming it with a `.bak` suffix; rename errors are ignored. -/
def backupEnv (file : String) (fs : Fs) : Fs × List FsEff :=
  (fsRename fs file (file ++ ".bak"), [FsEff.rename file (file ++ ".bak")])

/-- Embeds `deleteEnv` (part_001 lines 425-431): remove an existing snapshot
file by just backing it up; nothing new is written. -/
def deleteEnv (env : Env) (fs : Fs) : Fs × List FsEff :=
  backupEnv (envPath env.name) fs

/-- Embeds `removeEnv` (part_001 lines 181-187): delete the environment's
information, then print a confirmation message (console output is not part
of the file-system model). -/
def removeEnv (env : Env) (fs : Fs) : Fs × List FsEff :=
  deleteEnv env fs

/-- Result of a `saveEnv` call: the returned success flag, the resulting
file system, the file-system effects issued, and the diagnostics emitted. -/
structure SaveResult where
  success : Bool
  fs : Fs
  effects : List FsEff
  errors : List ErrorCode

/-- Embeds `saveEnv` (part_001 lines 489-535): resolve an empty path to the
default location, detect the format from the extension (appending the
default extension when the path has none), marshal the serialized envfile,
refuse to proceed when `existok` is false and the file exists, then back up
any existing file, ensure the directory exists and write the new content.
`MkdirAll` and `WriteFile` are modelled as succeeding; their error returns
are not exercised by any claim. -/
def saveEnv (env : Env) (snap : Option Snapshot) (file : String) (existok : Bool)
    (fs : Fs) : SaveResult :=
  let file := if file = "" then envPath env.name else file
  match encodingDetect file with
  | (none, ext) => ⟨false, fs, [], [ErrorCode.illegalMarkupExtension ext]⟩
  | (some m, ext) =>
    let file := if filepathExt file = "" then file ++ ext else file
    let dep := serializeEnvfile env snap
    match m.marshal dep with
    | none => ⟨false, fs, [], [ErrorCode.ioError]⟩
    | some b =>
      if !existok && fsExists fs file then
        ⟨false, fs, [], [ErrorCode.ioError]⟩
      else
        let bk := backupEnv file fs
        ⟨true, fsWrite bk.1 file b,
          bk.2 ++ [FsEff.mkdirAll (filepathDir file), FsEff.write file b], []⟩

/-- The destination path `saveEnv` resolves for a given argument: the
default per-environment location when empty, with the detected default
extension appended when the path carries no extension. -/
def resolveFile (env : Env) (file : String) : String :=
  let f := if file = "" then envPath env.name else file
  match encodingDetect f with
  | (none, _) => f
  | (some _, ext) => if filepathExt f = "" then f ++ ext else f

/-- Outcome of Go `ioutil.ReadFile`: contents, a does-not-exist error, or
any other I/O error. -/
inductive ReadResult where
  | ok (b : Blob)
  | errNotExist
  | errOther

/-- Result of a `readEnv` call: the envfile, environment and snapshot
(all `none` on failure) plus the diagnostics emitted. -/
structure ReadEnvResult where
  envfile : Option Envfile
  env : Option Env
  snap : Option Snapshot
  errors : List ErrorCode

/-- Embeds `readEnv` (part_001 lines 433-486): detect the encoding of the
environment's checkpoint file, read it (a missing file is diagnosed as an
invalid environment name, any other read error as an I/O error), unmarshal
once into the typed `Envfile` structure and once into a generic object,
strict-validate the generic object, and deserialize on success.  Reading is
modelled by an explicit read function standing for `ioutil.ReadFile`. -/
def readEnv (name : String) (readf : String → ReadResult) : ReadEnvResult :=
  let file := envPath name
  match encodingDetect file with
  | (none, ext) => ⟨none, none, none, [ErrorCode.illegalMarkupExtension ext]⟩
  | (some m, _) =>
    match readf file with
    | ReadResult.errNotExist => ⟨none, none, none, [ErrorCode.invalidEnvName name]⟩
    | ReadResult.errOther => ⟨none, none, none, [ErrorCode.ioError]⟩
    | ReadResult.ok b =>
      match m.unmarshal b with
      | none => ⟨none, none, none, [ErrorCode.cantReadDeployment file]⟩
      | some envfile =>
        match blobGenericDecode b with
        | none => ⟨none, none, none, [ErrorCode.cantReadDeployment file]⟩
        | some obj =>
          if strictDecodeOk obj then
            let es := deserializeEnvfile envfile
            ⟨some envfile, some es.1, es.2, []⟩
          else ⟨none, none, none, [ErrorCode.cantReadDeployment file]⟩

/-- Modelled from the spec: the closed `StepOp` enumeration
(spec section 3): Same, Create, Update, Delete, ReplaceCreate,
ReplaceDelete. -/
inductive StepOp where
  | same
  | create
  | update
  | delete
  | replaceCreate
  | replaceDelete
deriving DecidableEq, BEq, Repr

/-- Modelled from the spec: `resource.StepOps()`, the canonical iteration
order used when summarizing counts. -/
def StepOps : List StepOp :=
  [StepOp.same, StepOp.create, StepOp.update, StepOp.delete,
   StepOp.replaceCreate, StepOp.replaceDelete]

/-- Whether an op is one of the fine-grained halves of a replacement. -/
def isReplaceStep (op : StepOp) : Bool :=
  op == StepOp.replaceCreate || op == StepOp.replaceDelete

/-- Modelled from the spec: `resource.State`, the provider-reported outcome
state of a failed step: `ok` (known-good, recoverable) or `unknown`
(catastrophic). -/
inductive State where
  | ok
  | unknown
deriving DecidableEq, BEq, Repr

/-- Embeds the `applyProgress` accumulator (part_001 lines 551-557): step
count, per-op histogram, the sticky corruption flag, and the summary
display option.  The Go op-count map is modelled as a total function with
absent keys reading as zero. -/
structure ApplyProgress where
  steps : Nat
  ops : StepOp → Nat
  maybeCorrupt : Bool
  summary : Bool

/-- Embeds `newProgress` (part_001 lines 559-566). -/
def newProgress (summary : Bool) : ApplyProgress :=
  { steps := 0, ops := fun _ => 0, maybeCorrupt := false, summary := summary }

/-- Embeds `applyProgress.After` (part_001 lines 584-612): with a nil error
(`err = false`) the step and op counters are incremented; with a non-nil
error, a recovered (`ok`) state leaves the accumulator unchanged while a
catastrophic (`unknown`) state sets `maybeCorrupt`.  Console output and the
diagnostic emission are not part of the accumulator. -/
def applyProgressAfter (prog : ApplyProgress) (op : StepOp) (state : State)
    (err : Bool) : ApplyProgress :=
  if err then
    match state with
    | State.ok => prog
    | State.unknown => { prog with maybeCorrupt := true }
  else
    { prog with
        steps := prog.steps + 1,
        ops := fun o => if o = op then prog.ops o + 1 else prog.ops o }

/-- One `After` callback observation: the step's op, the provider-reported
state, and whether the error argument was non-nil. -/
structure AfterEvent where
  op : StepOp
  state : State
  err : Bool

/-- Folds a sequence of `After` callbacks over the accumulator, in order. -/
def runAfterSeq (prog : ApplyProgress) (events : List AfterEvent) : ApplyProgress :=
  events.foldl (fun p e => applyProgressAfter p e.op e.state e.err) prog

/-- The numbers printed by `printSummary`: the reported total and, in
canonical op order, one line per displayed op with its count. -/
structure SummaryOutput where
  total : Nat
  lines : List (StepOp × Nat)

/-- Embeds `printSummary` (part_001 lines 671-708): the total sums the op
counts, skipping the replacement halves unless `showReplaceSteps`; then one
line is written per op, in canonical order, for displayed ops with a
positive count.  Wording-only output (pluralization, the `planned` prefix,
colors) is not modelled. -/
def printSummary (counts : StepOp → Nat) (showReplaceSteps : Bool) : SummaryOutput :=
  let total := StepOps.foldl
    (fun t op => if !showReplaceSteps && isReplaceStep op then t else t + counts op) 0
  let lines := StepOps.filterMap
    (fun op =>
      if !showReplaceSteps && isReplaceStep op then none
      else if 0 < counts op then some (op, counts op) else none)
  ⟨total, lines⟩

/-- Embeds the `applyOptions` structure (part_001 lines 537-548). -/
structure ApplyOptions where
  create : Bool
  delete : Bool
  dryRun : Bool
  analyzers : List String
  showConfig : Bool
  showReplaceSteps : Bool
  showUnchanged : Bool
  summary : Bool
  dot : Bool
  output : String

/-- One `saveEnv` invocation issued by the `apply` driver, with the
arguments it passed. -/
structure SaveCall where
  env : Env
  snap : Option Snapshot
  file : String
  existok : Bool

/-- Embeds the save behaviour of `apply` (part_001 lines 356-406) after
planning succeeded: in a dry run the new snapshot is saved only when an
output file other than stdout was requested; otherwise `Plan.Apply` has run
and the checkpoint it returned is saved unconditionally — `applyErr`
(whether `Plan.Apply` returned an error) only triggers an assertion that a
diagnostic was emitted and never guards the save. -/
def applyCmdSaveCalls (opts : ApplyOptions) (env : Env) (planNew : Option Snapshot)
    (checkpoint : Option Snapshot) (applyErr : Bool) : List SaveCall :=
  if opts.dryRun then
    if opts.output = "" || opts.output = "-" then []
    else [⟨env, planNew, opts.output, true⟩]
  else
    [⟨env, checkpoint, opts.output, true⟩]

mutual

/-- Modelled from the spec: `resource.ValueDiff` (spec section 3): the old
and new value, optionally carrying a nested array or object diff when both
sides are arrays or both are objects. -/
inductive ValueDiff where
  | mk (old : PropertyValue) (new : PropertyValue)
      (array : Option ArrayDiff) (object : Option ObjectDiff)

/-- Modelled from the spec: `resource.ArrayDiff` (spec section 3), indexed
positionally. -/
inductive ArrayDiff where
  | mk (adds : List (Nat × PropertyValue)) (deletes : List (Nat × PropertyValue))
      (sames : List (Nat × PropertyValue)) (updates : List (Nat × ValueDiff))

/-- Modelled from the spec: `resource.ObjectDiff` (spec section 3): Adds,
Deletes, Updates and Sames partition the union of both maps' keys. -/
inductive ObjectDiff where
  | mk (adds : List (String × PropertyValue)) (deletes : List (String × PropertyValue))
      (sames : List (String × PropertyValue)) (updates : List (String × ValueDiff))

end

/-- The added keys of an object diff. -/
def ObjectDiff.adds : ObjectDiff → List (String × PropertyValue)
  | ObjectDiff.mk a _ _ _ => a

/-- The deleted keys of an object diff. -/
def ObjectDiff.deletes : ObjectDiff → List (String × PropertyValue)
  | ObjectDiff.mk _ d _ _ => d

/-- The unchanged keys of an object diff. -/
def ObjectDiff.sames : ObjectDiff → List (String × PropertyValue)
  | ObjectDiff.mk _ _ s _ => s

/-- The updated keys of an object diff. -/
def ObjectDiff.updates : ObjectDiff → List (String × ValueDiff)
  | ObjectDiff.mk _ _ _ u => u

/-- Modelled from the spec: `ObjectDiff.Changed(k)` holds when the two maps
differ in key `k`, i.e. when `k` is added, deleted or updated. -/
def ObjectDiff.Changed (d : ObjectDiff) (k : String) : Bool :=
  d.adds.any (fun p => p.1 == k) || d.deletes.any (fun p => p.1 == k)
    || d.updates.any (fun p => p.1 == k)

/-- Typedef `AuthorizerType` (part_000 lines 203-207). -/
abbrev AuthorizerType := String

/-- Embeds the marshalable `Authorizer` structure (part_000 lines 175-188). -/
structure Authorizer where
  name : String
  type : AuthorizerType
  authorizerCredentials : Option String
  authorizerResultTTLInSeconds : Option F64
  authorizerURI : Option String
  identitySource : Option String
  identityValidationExpression : Option String
  providers : Option (List String)
  restAPI : Option String

/-- Property-key constant `Authorizer_Name` (part_000 line 192). -/
def Authorizer_Name : String := "name"

/-- Typedefs `AlarmComparisonOperator`, `AlarmMetric`, `AlarmStatistic`
(alarm.go). -/
abbrev AlarmComparisonOperator := String

/-- Typedef `AlarmMetric` (alarm.go). -/
abbrev AlarmMetric := String

/-- Typedef `AlarmStatistic` (alarm.go). -/
abbrev AlarmStatistic := String

/-- Embeds the marshalable `AlarmDimension` structure (alarm.go); its
`value` field is a dynamic `interface` value. -/
structure AlarmDimension where
  name : String
  value : PropertyValue

/-- Embeds the marshalable `Alarm` structure (alarm.go lines 359-376). -/
structure Alarm where
  name : String
  comparisonOperator : AlarmComparisonOperator
  evaluationPeriods : F64
  metricName : String
  namespace_ : String
  period : F64
  statistic : AlarmStatistic
  threshold : F64
  actionsEnabled : Option Bool
  alarmActions : Option (List String)
  alarmDescription : Option String
  alarmName : Option String
  dimensions : Option (List AlarmDimension)
  insufficientDataActions : Option (List String)
  okActions : Option (List String)
  unit : Option AlarmMetric

/-- Property-key constant `Alarm_Name` (alarm.go line 381). -/
def Alarm_Name : String := "name"

/-- Embeds the marshalable `VPCGatewayAttachment` structure
(vpcGatewayAttachment.go lines 183-188). -/
structure VPCGatewayAttachment where
  name : String
  vpc : String
  internetGateway : String

/-- Property-key constant `VPCGatewayAttachment_Name`
(vpcGatewayAttachment.go line 191). -/
def VPCGatewayAttachment_Name : String := "name"

/-- Outcome of a provider `Name` RPC: either an error with its message or
the resolved name. -/
inductive NameResult where
  | err (msg : String)
  | ok (name : String)

/-- Embeds the post-decode body of `AuthorizerProvider.Name` (part_000
lines 64-78): an empty decoded name is an error, with a distinct message
when the name key is marked unknown in the request; otherwise the decoded
name is returned.  `unknowns` models the request's `Unknowns` map. -/
def authorizerProviderName (obj : Authorizer) (unknowns : String → Bool) : NameResult :=
  if obj.name = "" then
    if unknowns Authorizer_Name then
      NameResult.err "Name property cannot be computed from unknown outputs"
    else
      NameResult.err "Name property cannot be empty"
  else
    NameResult.ok obj.name

/-- Embeds the post-decode body of `AlarmProvider.Name` (alarm.go lines
242-256). -/
def alarmProviderName (obj : Alarm) (unknowns : String → Bool) : NameResult :=
  if obj.name = "" then
    if unknowns Alarm_Name then
      NameResult.err "Name property cannot be computed from unknown outputs"
    else
      NameResult.err "Name property cannot be empty"
  else
    NameResult.ok obj.name

/-- Embeds the post-decode body of `VPCGatewayAttachmentProvider.Name`
(vpcGatewayAttachment.go lines 64-78). -/
def vpcGatewayAttachmentProviderName (obj : VPCGatewayAttachment)
    (unknowns : String → Bool) : NameResult :=
  if obj.name = "" then
    if unknowns VPCGatewayAttachment_Name then
      NameResult.err "Name property cannot be computed from unknown outputs"
    else
      NameResult.err "Name property cannot be empty"
  else
    NameResult.ok obj.name

/-- Embeds the structural replaces accumulation of
`AuthorizerProvider.InspectChange` (part_000 lines 122-128): when the diff
is non-nil and `name` changed, `name` is appended to the replace list. -/
def authorizerReplaces (diff : Option ObjectDiff) : List String :=
  match diff with
  | none => []
  | some d => if d.Changed "name" then ["name"] else []

/-- Embeds the post-decode body of `AuthorizerProvider.InspectChange`
(part_000 lines 110-136): the structural replace keys are computed from the
diff, the provider-specific `ops.InspectChange` callback result (`none`
models a callback error, which propagates) is appended after them. -/
def authorizerProviderInspectChange (diff : Option ObjectDiff)
    (callback : Option (List String)) : Option (List String) :=
  let replaces := authorizerReplaces diff
  match callback with
  | none => none
  | some more => some (replaces ++ more)

/-- Embeds the structural replaces accumulation of
`AlarmProvider.InspectChange` (alarm.go lines 300-309): changed `name` and
`alarmName` keys are appended, in that order. -/
def alarmReplaces (diff : Option ObjectDiff) : List String :=
  match diff with
  | none => []
  | some d =>
    let r : List String := if d.Changed "name" then ["name"] else []
    if d.Changed "alarmName" then r ++ ["alarmName"] else r

/-- Embeds the post-decode body of `AlarmProvider.InspectChange` (alarm.go
lines 288-317). -/
def alarmProviderInspectChange (diff : Option ObjectDiff)
    (callback : Option (List String)) : Option (List String) :=
  let replaces := alarmReplaces diff
  match callback with
  | none => none
  | some more => some (replaces ++ more)

/-- Embeds the structural replaces accumulation of
`VPCGatewayAttachmentProvider.InspectChange` (vpcGatewayAttachment.go lines
122-134): changed `name`, `vpc` and `internetGateway` keys are appended, in
that order. -/
def vpcGatewayAttachmentReplaces (diff : Option ObjectDiff) : List String :=
  match diff with
  | none => []
  | some d =>
    let r : List String := if d.Changed "name" then ["name"] else []
    let r := if d.Changed "vpc" then r ++ ["vpc"] else r
    if d.Changed "internetGateway" then r ++ ["internetGateway"] else r

/-- Embeds the post-decode body of
`VPCGatewayAttachmentProvider.InspectChange` (vpcGatewayAttachment.go lines
110-142). -/
def vpcGatewayAttachmentProviderInspectChange (diff : Option ObjectDiff)
    (callback : Option (List String)) : Option (List String) :=
  let replaces := vpcGatewayAttachmentReplaces diff
  match callback with
  | none => none
  | some more => some (replaces ++ more)

example : filepathExt "x.json" = ".json" := by decide
example : filepathExt "dir.d/file" = "" := by decide
example : filepathExt "a/b.yaml" = ".yaml" := by decide
example : filepathDir "a/b.yaml" = "a" := by decide
example : filepathDir "b.yaml" = "." := by decide
example : (encodingDetect "x.bad").1.isNone = true := by decide

/-- A sample environment used by the concrete witnesses below. -/
def env0 : Env := { name := "dev", config := [] }

/-- Claim C1: for every provider InspectChange call where the diff is
non-nil and Changed("name") holds, the returned replacement-cause list
contains "name" regardless of which keys the provider-specific callback
returns, and the provider-declared keys are appended to, never replace, the
structural ones — for all three generated providers. -/
theorem claim_C1_inspectChange_name_always_in_replaces
    (diff : Option ObjectDiff) (d : ObjectDiff) (more : List String)
    (hd : diff = some d) (hc : d.Changed "name" = true) :
    (authorizerProviderInspectChange diff (some more)
        = some (authorizerReplaces diff ++ more)
      ∧ "name" ∈ authorizerReplaces diff)
    ∧ (alarmProviderInspectChange diff (some more)
        = some (alarmReplaces diff ++ more)
      ∧ "name" ∈ alarmReplaces diff)
    ∧ (vpcGatewayAttachmentProviderInspectChange diff (some more)
        = some (vpcGatewayAttachmentReplaces diff ++ more)
      ∧ "name" ∈ vpcGatewayAttachmentReplaces diff) := by
  subst hd
  refine ⟨⟨rfl, ?_⟩, ⟨rfl, ?_⟩, ⟨rfl, ?_⟩⟩
  · simp [authorizerReplaces, hc]
  · cases ha : d.Changed "alarmName" <;> simp [alarmReplaces, hc, ha]
  · cases hv : d.Changed "vpc" <;> cases hg : d.Changed "internetGateway" <;>
      simp [vpcGatewayAttachmentReplaces, hc, hv, hg]

/-- A diff in which exactly the name key was updated, for the C1 witness. -/
def diffNameOnly : ObjectDiff :=
  ObjectDiff.mk [] [] []
    [("name", ValueDiff.mk (PropertyValue.string "a") (PropertyValue.string "b") none none)]

/-- Witness for claim C1 at a concrete diff and callback result. -/
theorem claim_C1_witness :
    authorizerProviderInspectChange (some diffNameOnly) (some ["restAPI"])
        = some (authorizerReplaces (some diffNameOnly) ++ ["restAPI"])
      ∧ "name" ∈ authorizerReplaces (some diffNameOnly) :=
  (claim_C1_inspectChange_name_always_in_replaces (some diffNameOnly) diffNameOnly
    ["restAPI"] rfl (by decide)).1

/-- One After callback sets maybeCorrupt exactly on a non-nil error with an
unknown state, and otherwise leaves the flag as it was. -/
lemma after_maybeCorrupt (p : ApplyProgress) (op : StepOp) (st : State) (err : Bool) :
    (applyProgressAfter p op st err).maybeCorrupt
      = (p.maybeCorrupt || (err && st == State.unknown)) := by
  cases err <;> cases st <;>
    simp [applyProgressAfter, show (State.ok == State.unknown) = false from rfl,
      show (State.unknown == State.unknown) = true from rfl]

/-- Claim C2: over any sequence of After callbacks, MaybeCorrupt ends true
exactly when it started true or some callback reported a non-nil error with
state Unknown: it is set the first time that happens, never cleared by a
later callback, and never set by a nil-error or OK-state callback. -/
theorem claim_C2_maybeCorrupt_sticky (prog : ApplyProgress) (events : List AfterEvent) :
    (runAfterSeq prog events).maybeCorrupt
      = (prog.maybeCorrupt
          || events.any (fun e => e.err && e.state == State.unknown)) := by
  induction events generalizing prog with
  | nil => simp [runAfterSeq]
  | cons e es ih =>
    have h1 : runAfterSeq prog (e :: es)
        = runAfterSeq (applyProgressAfter prog e.op e.state e.err) es := rfl
    rw [h1, ih, after_maybeCorrupt]
    simp [Bool.or_assoc]

/-- Claim C3: in a non-dry-run apply, the only save issued passes the
checkpoint returned by Plan.Apply, with overwrite allowed, whether or not
Apply reported an error. -/
theorem claim_C3_checkpoint_saved_unconditionally
    (opts : ApplyOptions) (env : Env) (planNew checkpoint : Option Snapshot)
    (applyErr : Bool) (h : opts.dryRun = false) :
    applyCmdSaveCalls opts env planNew checkpoint applyErr
      = [⟨env, checkpoint, opts.output, true⟩] := by
  simp [applyCmdSaveCalls, h]

/-- Non-dry-run apply options used by the C3 witness. -/
def opts0 : ApplyOptions :=
  { create := false, delete := false, dryRun := false, analyzers := [],
    showConfig := false, showReplaceSteps := false, showUnchanged := false,
    summary := false, dot := false, output := "out.json" }

/-- Witness for claim C3: the checkpoint is saved both on a failed and on a
successful apply. -/
theorem claim_C3_witness :
    applyCmdSaveCalls opts0 env0 none (some []) true
        = [⟨env0, some [], "out.json", true⟩]
    ∧ applyCmdSaveCalls opts0 env0 none (some []) false
        = [⟨env0, some [], "out.json", true⟩] :=
  ⟨claim_C3_checkpoint_saved_unconditionally opts0 env0 none (some []) true rfl,
   claim_C3_checkpoint_saved_unconditionally opts0 env0 none (some []) false rfl⟩

/-- Claim C9: for every provider Name call whose properties decoded, an
empty decoded name is an error — with a distinct message when the name key
is marked unknown versus merely empty — and a successful result returns
exactly the decoded name, which is therefore never empty; for all three
generated providers. -/
theorem claim_C9_name_rpc_nonempty
    (a : Authorizer) (al : Alarm) (v : VPCGatewayAttachment) (u : String → Bool) :
    (a.name = "" → u Authorizer_Name = true →
      authorizerProviderName a u
        = NameResult.err "Name property cannot be computed from unknown outputs")
    ∧ (a.name = "" → u Authorizer_Name = false →
      authorizerProviderName a u = NameResult.err "Name property cannot be empty")
    ∧ (∀ n, authorizerProviderName a u = NameResult.ok n → n = a.name ∧ n ≠ "")
    ∧ (al.name = "" → u Alarm_Name = true →
      alarmProviderName al u
        = NameResult.err "Name property cannot be computed from unknown outputs")
    ∧ (al.name = "" → u Alarm_Name = false →
      alarmProviderName al u = NameResult.err "Name property cannot be empty")
    ∧ (∀ n, alarmProviderName al u = NameResult.ok n → n = al.name ∧ n ≠ "")
    ∧ (v.name = "" → u VPCGatewayAttachment_Name = true →
      vpcGatewayAttachmentProviderName v u
        = NameResult.err "Name property cannot be computed from unknown outputs")
    ∧ (v.name = "" → u VPCGatewayAttachment_Name = false →
      vpcGatewayAttachmentProviderName v u
        = NameResult.err "Name property cannot be empty")
    ∧ (∀ n, vpcGatewayAttachmentProviderName v u = NameResult.ok n →
        n = v.name ∧ n ≠ "")
    ∧ ("Name property cannot be computed from unknown outputs"
        ≠ "Name property cannot be empty") := by
  refine ⟨?_, ?_, ?_, ?_, ?_, ?_, ?_, ?_, ?_, by decide⟩
  · intro h1 h2; simp [authorizerProviderName, h1, h2]
  · intro h1 h2; simp [authorizerProviderName, h1, h2]
  · intro n hn
    by_cases h : a.name = ""
    · cases hu : u Authorizer_Name <;> simp [authorizerProviderName, h, hu] at hn
    · simp only [authorizerProviderName, if_neg h, NameResult.ok.injEq] at hn
      exact ⟨hn.symm, hn ▸ h⟩
  · intro h1 h2; simp [alarmProviderName, h1, h2]
  · intro h1 h2; simp [alarmProviderName, h1, h2]
  · intro n hn
    by_cases h : al.name = ""
    · cases hu : u Alarm_Name <;> simp [alarmProviderName, h, hu] at hn
    · simp only [alarmProviderName, if_neg h, NameResult.ok.injEq] at hn
      exact ⟨hn.symm, hn ▸ h⟩
  · intro h1 h2; simp [vpcGatewayAttachmentProviderName, h1, h2]
  · intro h1 h2; simp [vpcGatewayAttachmentProviderName, h1, h2]
  · intro n hn
    by_cases h : v.name = ""
    · cases hu : u VPCGatewayAttachment_Name <;>
        simp [vpcGatewayAttachmentProviderName, h, hu] at hn
    · simp only [vpcGatewayAttachmentProviderName, if_neg h, NameResult.ok.injEq] at hn
      exact ⟨hn.symm, hn ▸ h⟩

/-- An authorizer with an empty name for the C9 witness. -/
def authEmpty : Authorizer :=
  { name := "", type := "TOKEN", authorizerCredentials := none,
    authorizerResultTTLInSeconds := none, authorizerURI := none,
    identitySource := none, identityValidationExpression := none,
    providers := none, restAPI := none }

/-- A fully named alarm for the C9 witness. -/
def alarmSample : Alarm :=
  { name := "al", comparisonOperator := "GreaterThanThreshold",
    evaluationPeriods := ⟨true, 5⟩, metricName := "m", namespace_ := "ns",
    period := ⟨true, 60⟩, statistic := "Average", threshold := ⟨true, 1⟩,
    actionsEnabled := none, alarmActions := none, alarmDescription := none,
    alarmName := none, dimensions := none, insufficientDataActions := none,
    okActions := none, unit := none }

/-- A gateway attachment with an empty name for the C9 witness. -/
def vpcSample : VPCGatewayAttachment :=
  { name := "", vpc := "v", internetGateway := "g" }

/-- Witness for claim C9 at concrete requests: the unknown-name error, the
plain empty-name error, and a successful nonempty resolution. -/
theorem claim_C9_witness :
    (authorizerProviderName authEmpty (fun _ => true)
        = NameResult.err "Name property cannot be computed from unknown outputs")
    ∧ (vpcGatewayAttachmentProviderName vpcSample (fun _ => false)
        = NameResult.err "Name property cannot be empty")
    ∧ ("al" = alarmSample.name ∧ "al" ≠ "") := by
  have h := claim_C9_name_rpc_nonempty authEmpty alarmSample vpcSample (fun _ => true)
  have h2 := claim_C9_name_rpc_nonempty authEmpty alarmSample vpcSample (fun _ => false)
  exact ⟨h.1 rfl rfl, h2.2.2.2.2.2.2.2.1 rfl rfl, h.2.2.2.2.2.1 "al" rfl⟩

/-- Folding op counts while skipping some ops equals summing the counts of
the displayed (non-skipped, positive-count) lines. -/
lemma summary_foldl_aux (f : StepOp → Nat) (skip : StepOp → Bool)
    (l : List StepOp) (n : Nat) :
    l.foldl (fun t op => if skip op then t else t + f op) n
      = n + ((l.filterMap (fun op =>
            if skip op then none
            else if 0 < f op then some (op, f op) else none)).map
            (fun p => p.2)).sum := by
  induction l generalizing n with
  | nil => simp
  | cons op l ih =>
    cases hs : skip op
    · by_cases hf : 0 < f op
      · simp [hs, hf, ih, Nat.add_assoc]
      · have h0 : f op = 0 := Nat.eq_zero_of_not_pos hf
        simp [hs, hf, ih, h0]
    · simp [hs, ih]

/-- Claim C8: the total printSummary reports equals the sum of the per-op
counts it displays; with showReplaceSteps off the replacement halves are
excluded from both the lines and the total, and with it on the total counts
every op. -/
theorem claim_C8_summary_total_consistent (counts : StepOp → Nat) (shw : Bool) :
    ((printSummary counts shw).total
        = ((printSummary counts shw).lines.map (fun p => p.2)).sum)
    ∧ (shw = false →
        ∀ p ∈ (printSummary counts shw).lines, isReplaceStep p.1 = false)
    ∧ (shw = true → (printSummary counts shw).total = (StepOps.map counts).sum) := by
  refine ⟨?_, ?_, ?_⟩
  · have h := summary_foldl_aux counts (fun op => !shw && isReplaceStep op) StepOps 0
    simpa [printSummary] using h
  · intro h p hp
    subst h
    simp only [printSummary, List.mem_filterMap] at hp
    obtain ⟨op, _, hop⟩ := hp
    by_cases hr : isReplaceStep op = true
    · simp [hr] at hop
    · by_cases hc : 0 < counts op
      · simp [hr, hc] at hop
        subst hop
        simpa using hr
      · simp [hr, hc] at hop
  · intro h
    subst h
    simp [printSummary, StepOps, isReplaceStep]
    omega

/-- A concrete op-count map with an ordinary and a replacement op, for the
C8 witness. -/
def counts0 : StepOp → Nat :=
  fun op =>
    match op with
    | StepOp.create => 2
    | StepOp.replaceDelete => 1
    | _ => 0

/-- Witness for claim C8 at a concrete count map, with replacement steps
both hidden and shown. -/
theorem claim_C8_witness :
    ((printSummary counts0 false).total
        = ((printSummary counts0 false).lines.map (fun p => p.2)).sum)
    ∧ isReplaceStep (StepOp.create, 2).1 = false
    ∧ (printSummary counts0 true).total = (StepOps.map counts0).sum := by
  refine ⟨(claim_C8_summary_total_consistent counts0 false).1, ?_, ?_⟩
  · exact (claim_C8_summary_total_consistent counts0 false).2.1 rfl
      (StepOp.create, 2) (List.mem_singleton.mpr rfl)
  · exact (claim_C8_summary_total_consistent counts0 true).2.2 rfl

/-- Appending the backup suffix always changes a path. -/
lemma bak_ne (s : String) : s ++ ".bak" ≠ s := by
  intro h
  have hlen := congrArg String.length h
  rw [String.length_append] at hlen
  have : (".bak" : String).length = 4 := by decide
  omega

/-- Claim C10: removing an environment only renames the checkpoint file to
its backup name: the recorded bytes survive unchanged under the .bak path
and every other path is untouched; no delete or truncation is issued. -/
theorem claim_C10_removeEnv_only_backup (env : Env) (fs : Fs) :
    (removeEnv env fs).2
        = [FsEff.rename (envPath env.name) (envPath env.name ++ ".bak")]
    ∧ (∀ c, fs (envPath env.name) = some c →
        (removeEnv env fs).1 (envPath env.name ++ ".bak") = some c)
    ∧ (∀ q, q ≠ envPath env.name → q ≠ envPath env.name ++ ".bak" →
        (removeEnv env fs).1 q = fs q) := by
  refine ⟨rfl, ?_, ?_⟩
  · intro c hc
    simp [removeEnv, deleteEnv, backupEnv, fsRename, hc]
  · intro q h1 h2
    rcases hv : fs (envPath env.name) with _ | c
    · simp [removeEnv, deleteEnv, backupEnv, fsRename, hv]
    · simp [removeEnv, deleteEnv, backupEnv, fsRename, hv, h1, h2]

/-- Witness for claim C10: removing a concrete environment whose checkpoint
exists preserves its blob under the backup name and leaves other paths
alone. -/
theorem claim_C10_witness :
    (removeEnv env0 (fun p => if p = envPath "dev" then some Blob.garbage else none)).1
        (envPath env0.name ++ ".bak") = some Blob.garbage
    ∧ (removeEnv env0 (fun p => if p = envPath "dev" then some Blob.garbage else none)).1
        "other.json" = none := by
  have h := claim_C10_removeEnv_only_backup env0
    (fun p => if p = envPath "dev" then some Blob.garbage else none)
  refine ⟨h.2.1 Blob.garbage rfl, ?_⟩
  have h2 := h.2.2 "other.json" (by decide) (by decide)
  simpa using h2

/-- Claim C4: a save with existok false against an existing resolved path
returns false and performs no file-system modification: no backup rename,
no directory creation, no write, and the file map is unchanged. -/
theorem claim_C4_save_existing_no_overwrite
    (env : Env) (snap : Option Snapshot) (file : String) (fs : Fs)
    (hex : fsExists fs (resolveFile env file) = true) :
    (saveEnv env snap file false fs).success = false
    ∧ (saveEnv env snap file false fs).fs = fs
    ∧ (saveEnv env snap file false fs).effects = [] := by
  simp only [resolveFile] at hex
  simp only [saveEnv]
  rcases hdet : encodingDetect (if file = "" then envPath env.name else file)
    with ⟨om, ext⟩
  simp only [hdet] at hex ⊢
  cases om with
  | none => exact ⟨rfl, rfl, rfl⟩
  | some m =>
    simp only [] at hex ⊢
    rcases hm : m.marshal (serializeEnvfile env snap) with _ | b
    · simp [hm]
    · simp [hm, hex]

/-- Witness for claim C4: saving over an existing checkpoint with existok
false at a concrete path fails and leaves the file system untouched. -/
theorem claim_C4_witness :
    (saveEnv env0 none "cp.json" false
        (fun p => if p = "cp.json" then some Blob.garbage else none)).success = false
    ∧ (saveEnv env0 none "cp.json" false
        (fun p => if p = "cp.json" then some Blob.garbage else none)).fs
      = (fun p => if p = "cp.json" then some Blob.garbage else none)
    ∧ (saveEnv env0 none "cp.json" false
        (fun p => if p = "cp.json" then some Blob.garbage else none)).effects = [] :=
  claim_C4_save_existing_no_overwrite env0 none "cp.json"
    (fun p => if p = "cp.json" then some Blob.garbage else none) rfl

/-- Claim C5: saveEnv validates and encodes before touching the
destination: an undetectable format fails with the unsupported-format
diagnostic and a failing marshal fails with an I/O diagnostic, in both
cases before any backup rename, directory creation or write, leaving the
file map unchanged. -/
theorem claim_C5_save_validates_before_destination
    (env : Env) (snap : Option Snapshot) (file : String) (existok : Bool) (fs : Fs) :
    ((encodingDetect (if file = "" then envPath env.name else file)).1 = none →
      (saveEnv env snap file existok fs).success = false
      ∧ (saveEnv env snap file existok fs).fs = fs
      ∧ (saveEnv env snap file existok fs).effects = []
      ∧ (saveEnv env snap file existok fs).errors
          = [ErrorCode.illegalMarkupExtension
              (encodingDetect (if file = "" then envPath env.name else file)).2])
    ∧ (∀ m, (encodingDetect (if file = "" then envPath env.name else file)).1 = some m →
        m.marshal (serializeEnvfile env snap) = none →
        (saveEnv env snap file existok fs).success = false
        ∧ (saveEnv env snap file existok fs).fs = fs
        ∧ (saveEnv env snap file existok fs).effects = []
        ∧ (saveEnv env snap file existok fs).errors = [ErrorCode.ioError]) := by
  simp only [saveEnv]
  rcases hdet : encodingDetect (if file = "" then envPath env.name else file)
    with ⟨om, ext⟩
  simp only [hdet]
  constructor
  · intro hnone
    cases om with
    | none => exact ⟨rfl, rfl, rfl, rfl⟩
    | some m => simp at hnone
  · intro m hsome hm
    cases om with
    | none => simp at hsome
    | some m2 =>
      have hm2 : m2 = m := by simpa using hsome
      subst hm2
      simp [hm]

/-- A snapshot containing a non-finite number, whose JSON encode fails, for
the C5 witness. -/
def snapBad : Snapshot :=
  [{ type := "t", id := "i", urn := "u",
     properties := [("x", PropertyValue.number ⟨false, 0⟩)] }]

/-- Witness for claim C5: an unrecognized extension and a failing encode
both fail without touching the file system. -/
theorem claim_C5_witness :
    ((saveEnv env0 none "cp.bad" true (fun _ => none)).success = false
      ∧ (saveEnv env0 none "cp.bad" true (fun _ => none)).effects = [])
    ∧ ((saveEnv env0 (some snapBad) "cp.json" true (fun _ => none)).success = false
      ∧ (saveEnv env0 (some snapBad) "cp.json" true (fun _ => none)).effects = []) := by
  constructor
  · have h := (claim_C5_save_validates_before_destination env0 none "cp.bad" true
      (fun _ => none)).1 rfl
    exact ⟨h.1, h.2.2.1⟩
  · have h := (claim_C5_save_validates_before_destination env0 (some snapBad) "cp.json"
      true (fun _ => none)).2 jsonMarshaler rfl rfl
    exact ⟨h.1, h.2.2.1⟩

/-- Claim C6: on every successful save path the existing destination is
first renamed to its .bak name, a failed rename (no existing file) does not
abort the save, and the save then creates directories and writes the new
content; an existing blob survives under the backup name. -/
theorem claim_C6_save_backs_up_then_writes
    (env : Env) (snap : Option Snapshot) (file : String) (existok : Bool) (fs : Fs)
    (m : Marshaler) (b : Blob)
    (hdet : (encodingDetect (if file = "" then envPath env.name else file)).1 = some m)
    (hm : m.marshal (serializeEnvfile env snap) = some b)
    (hok : existok = true ∨ fsExists fs (resolveFile env file) = false) :
    (saveEnv env snap file existok fs).success = true
    ∧ (saveEnv env snap file existok fs).effects
        = [FsEff.rename (resolveFile env file) (resolveFile env file ++ ".bak"),
           FsEff.mkdirAll (filepathDir (resolveFile env file)),
           FsEff.write (resolveFile env file) b]
    ∧ (saveEnv env snap file existok fs).fs (resolveFile env file) = some b
    ∧ (∀ c, fs (resolveFile env file) = some c →
        (saveEnv env snap file existok fs).fs (resolveFile env file ++ ".bak")
          = some c) := by
  simp only [resolveFile] at hok ⊢
  simp only [saveEnv]
  rcases hdp : encodingDetect (if file = "" then envPath env.name else file)
    with ⟨om, ext⟩
  rw [hdp] at hdet
  simp only [hdp] at hok ⊢
  cases om with
  | none => exact absurd hdet (by simp)
  | some m2 =>
    have hm2 : m2 = m := by simpa using hdet
    subst hm2
    simp only [] at hok ⊢
    have hcond : (!existok && fsExists fs
        (if filepathExt (if file = "" then envPath env.name else file) = ""
         then (if file = "" then envPath env.name else file) ++ ext
         else if file = "" then envPath env.name else file)) = false := by
      rcases hok with h | h
      · simp [h]
      · simp [h]
    simp only [hm, hcond, Bool.false_eq_true, if_false, backupEnv]
    refine ⟨by trivial, by trivial, ?_, ?_⟩
    · simp [fsWrite]
    · intro c hc
      simp [fsWrite, fsRename, hc, bak_ne]

/-- Witness for claim C6: a save over an existing concrete checkpoint
succeeds, attempts the backup rename first, writes the marshalled blob at
the destination and keeps the old blob under the .bak name. -/
theorem claim_C6_witness :
    (saveEnv env0 none "cp.json" true
        (fun p => if p = "cp.json" then some Blob.garbage else none)).success = true
    ∧ (saveEnv env0 none "cp.json" true
        (fun p => if p = "cp.json" then some Blob.garbage else none)).effects
        = [FsEff.rename (resolveFile env0 "cp.json") (resolveFile env0 "cp.json" ++ ".bak"),
           FsEff.mkdirAll (filepathDir (resolveFile env0 "cp.json")),
           FsEff.write (resolveFile env0 "cp.json")
             (Blob.markup (some (serializeEnvfile env0 none)) true)]
    ∧ (saveEnv env0 none "cp.json" true
        (fun p => if p = "cp.json" then some Blob.garbage else none)).fs
        (resolveFile env0 "cp.json")
      = some (Blob.markup (some (serializeEnvfile env0 none)) true)
    ∧ (saveEnv env0 none "cp.json" true
        (fun p => if p = "cp.json" then some Blob.garbage else none)).fs
        (resolveFile env0 "cp.json" ++ ".bak") = some Blob.garbage := by
  have h := claim_C6_save_backs_up_then_writes env0 none "cp.json" true
    (fun p => if p = "cp.json" then some Blob.garbage else none)
    jsonMarshaler (Blob.markup (some (serializeEnvfile env0 none)) true)
    rfl rfl (Or.inl rfl)
  exact ⟨h.1, h.2.1, h.2.2.1, h.2.2.2 Blob.garbage rfl⟩

/-- The default environment path always carries the .json extension,
whatever the environment name. -/
lemma filepathExt_envPath (n : String) : filepathExt (envPath n) = ".json" := by
  unfold envPath filepathExt
  rw [String.data_append, String.data_append, List.reverse_append]
  have h : (".json" : String).data.reverse = ['n', 'o', 's', 'j', '.'] := by decide
  rw [h]
  rfl

/-- Detection on the default environment path always resolves to the JSON
marshaler. -/
lemma encodingDetect_envPath (n : String) :
    encodingDetect (envPath n) = (some jsonMarshaler, ".json") := by
  unfold encodingDetect
  rw [filepathExt_envPath]
  rfl

/-- Claim C7: readEnv double-decodes the checkpoint file and returns all
nils whenever the file is unreadable or either decode fails, diagnosing a
missing file as an invalid environment name and any other read error as a
generic I/O error; a successful read implies both the typed decode and the
generic validation decode succeeded. -/
theorem claim_C7_readEnv_double_decode (name : String) (readf : String → ReadResult) :
    (readf (envPath name) = ReadResult.errNotExist →
      readEnv name readf = ⟨none, none, none, [ErrorCode.invalidEnvName name]⟩)
    ∧ (readf (envPath name) = ReadResult.errOther →
      readEnv name readf = ⟨none, none, none, [ErrorCode.ioError]⟩)
    ∧ (∀ b, readf (envPath name) = ReadResult.ok b → blobTypedDecode b = none →
      readEnv name readf
        = ⟨none, none, none, [ErrorCode.cantReadDeployment (envPath name)]⟩)
    ∧ (∀ b, readf (envPath name) = ReadResult.ok b → blobGenericDecode b = none →
      readEnv name readf
        = ⟨none, none, none, [ErrorCode.cantReadDeployment (envPath name)]⟩)
    ∧ (∀ ef, (readEnv name readf).envfile = some ef →
      ∃ b, readf (envPath name) = ReadResult.ok b ∧ blobTypedDecode b = some ef
        ∧ ∃ o, blobGenericDecode b = some o ∧ strictDecodeOk o = true) := by
  refine ⟨?_, ?_, ?_, ?_, ?_⟩
  · intro h
    simp [readEnv, encodingDetect_envPath, h]
  · intro h
    simp [readEnv, encodingDetect_envPath, h]
  · intro b h ht
    have hu : jsonMarshaler.unmarshal b = none := ht
    simp [readEnv, encodingDetect_envPath, h, hu]
  · intro b h hg
    rcases hu : jsonMarshaler.unmarshal b with _ | ef
    · simp [readEnv, encodingDetect_envPath, h, hu]
    · simp [readEnv, encodingDetect_envPath, h, hu, hg]
  · intro ef hef
    rcases hr : readf (envPath name) with b | _ | _
    · rcases ht : jsonMarshaler.unmarshal b with _ | ef2
      · simp [readEnv, encodingDetect_envPath, hr, ht] at hef
      · rcases hg : blobGenericDecode b with _ | o
        · simp [readEnv, encodingDetect_envPath, hr, ht, hg] at hef
        · cases hs : strictDecodeOk o
          · simp [readEnv, encodingDetect_envPath, hr, ht, hg, hs] at hef
          · have hef2 : ef2 = ef := by
              simpa [readEnv, encodingDetect_envPath, hr, ht, hg, hs] using hef
            subst hef2
            exact ⟨b, rfl, ht, o, hg, hs⟩
    · simp [readEnv, encodingDetect_envPath, hr] at hef
    · simp [readEnv, encodingDetect_envPath, hr] at hef

/-- An envfile whose blob decodes successfully for the C7 witness. -/
def ef0 : Envfile := { name := "dev", config := [], latest := none }

/-- Witness for claim C7 at concrete read outcomes: a missing file, a
garbage blob failing the typed decode, and a successful well-formed read. -/
theorem claim_C7_witness :
    readEnv "dev" (fun _ => ReadResult.errNotExist)
        = ⟨none, none, none, [ErrorCode.invalidEnvName "dev"]⟩
    ∧ readEnv "dev" (fun _ => ReadResult.ok Blob.garbage)
        = ⟨none, none, none, [ErrorCode.cantReadDeployment (envPath "dev")]⟩
    ∧ (∃ b, (fun _ : String => ReadResult.ok (Blob.markup (some ef0) true)) (envPath "dev")
          = ReadResult.ok b
        ∧ blobTypedDecode b = some ef0
        ∧ ∃ o, blobGenericDecode b = some o ∧ strictDecodeOk o = true) := by
  refine ⟨?_, ?_, ?_⟩
  · exact (claim_C7_readEnv_double_decode "dev" (fun _ => ReadResult.errNotExist)).1 rfl
  · exact (claim_C7_readEnv_double_decode "dev"
      (fun _ => ReadResult.ok Blob.garbage)).2.2.1 Blob.garbage rfl rfl
  · exact (claim_C7_readEnv_double_decode "dev"
      (fun _ => ReadResult.ok (Blob.markup (some ef0) true))).2.2.2.2 ef0 rfl

end Lumi
